import Mathlib

set_option maxRecDepth 8000

/-!
Shallow embedding of the message-content transformation pipeline and the
mention-triggered query dispatch subsystem of
`src/components/dashboard/MessageBubble.tsx`.

Strings are modelled as `List Char` internally (`String.data`), JavaScript
regular-expression `replace` calls become left-to-right scanners that emit
replacement text without rescanning it (matching `String.prototype.replace`
semantics), and the external collaborators (the `localStorage` attachment
snapshot, `Math.random`, the query service) become explicit parameters.
Functions of `@/services/zaniService`, which is repository code not present
under `src/`, are modelled from the spec and marked as such in their doc
comments.
-/

/-! ## Small string helpers -/

/-- JavaScript word character `\w` = `[A-Za-z0-9_]`. -/
def isWordChar (c : Char) : Bool :=
  c.isAlpha || c.isDigit || c == '_'

/-- `String.prototype.trim`: drop whitespace from both ends
(whitespace modelled as space, tab, newline, carriage return). -/
def trimChars (s : List Char) : List Char :=
  ((s.dropWhile Char.isWhitespace).reverse.dropWhile Char.isWhitespace).reverse

/-- `String.prototype.replace` with a plain-string pattern and empty
replacement: remove the first occurrence of `pat` (no-op when absent). -/
def removeFirst (pat : List Char) : List Char → List Char
  | [] => []
  | c :: rest =>
    if pat.isPrefixOf (c :: rest) then (c :: rest).drop pat.length
    else c :: removeFirst pat rest

/-- Substring test: does `needle` occur somewhere in the haystack? -/
def containsSub (needle : List Char) : List Char → Bool
  | [] => needle.isPrefixOf ([] : List Char)
  | c :: rest => needle.isPrefixOf (c :: rest) || containsSub needle rest

/-- Substring test lifted to `String`. -/
def strContains (hay needle : String) : Bool :=
  containsSub needle.data hay.data

/-- The attachment-marker token of the file pattern: the paperclip glyph
followed by a space (two characters). -/
def fileMarker : List Char := "📎 ".data

/-- `fileName.split('.').pop()?.toLowerCase()`: the characters after the last
dot (the whole name when there is no dot, the empty string after a trailing
dot), lowercased (ASCII, matching the extensions the tables compare with). -/
def extensionOf (fileName : String) : String :=
  String.mk (((fileName.data.reverse.takeWhile (fun c => c != '.')).reverse).map Char.toLower)

/-! ## `btoa` (base64 of a Latin-1 string)

The browser built-in `btoa` throws `InvalidCharacterError` when its argument
contains a character above U+00FF; otherwise it base64-encodes the string's
Latin-1 bytes.  The fallible behaviour is modelled with `Except`. -/

def b64chars : List Char :=
  "ABCDEFGHIJKLMNOPQRSTUVWXYZabcdefghijklmnopqrstuvwxyz0123456789+/".data

def b64get (n : Nat) : Char := b64chars.getD n 'A'

/-- Base64 encoding of a byte list (standard alphabet, `=` padding). -/
def b64encode : List Nat → List Char
  | [] => []
  | [a] => [b64get (a / 4), b64get (a % 4 * 16), '=', '=']
  | [a, b] => [b64get (a / 4), b64get (a % 4 * 16 + b / 16), b64get (b % 16 * 4), '=']
  | a :: b :: c :: rest =>
    b64get (a / 4) :: b64get (a % 4 * 16 + b / 16) ::
      b64get (b % 16 * 4 + c / 64) :: b64get (c % 64) :: b64encode rest

/-- `window.btoa`: errors on any character above U+00FF. -/
def btoa (s : String) : Except Unit String :=
  if s.data.any (fun c => 255 < c.toNat) then .error ()
  else .ok (String.mk (b64encode (s.data.map Char.toNat)))

/-! ## Attachment store snapshot and the per-file helpers

The `localStorage` entry `slackAI_files` is an external key-value collaborator;
its parsed snapshot is modelled as a list of records in `Object.values` order.
A missing or unparsable entry behaves exactly like an empty list (every lookup
falls through to the fallback).  Falsy `url` / `size` fields are modelled as
`""` / `0`, mirroring the source's truthiness checks. -/

structure FileRec where
  name : String
  url : String
  size : Nat
deriving DecidableEq

/-- `getFileType` (MessageBubble.tsx line 194): extension = text after the last
dot, lowercased; fixed extension-to-MIME table, `application/octet-stream`
otherwise. -/
def getFileType (fileName : String) : String :=
  let extension := extensionOf fileName
  if ["jpg", "jpeg", "png", "gif", "webp", "svg"].contains extension then
    "image/" ++ (if extension == "jpg" then "jpeg" else extension)
  else if extension == "pdf" then "application/pdf"
  else if ["doc", "docx"].contains extension then "application/msword"
  else if ["xls", "xlsx"].contains extension then "application/excel"
  else "application/octet-stream"

/-- Fallback branch of `getActualFileUrl`: stable placeholder for recognized
image extensions (note: unlike `getFileType`, `svg` is absent here), otherwise
a data URL whose payload is `btoa(fileName)` — which can throw. -/
def fallbackUrl (fileName : String) : Except Unit String :=
  let extension := extensionOf fileName
  if ["jpg", "jpeg", "png", "gif", "webp"].contains extension then
    .ok "/lovable-uploads/525e7c65-c028-4da7-a1e6-35cba7375353.png"
  else
    (btoa fileName).map (fun b => "data:application/octet-stream;base64," ++ b)

/-- `getActualFileUrl` (line 205): first match by exact name in the snapshot;
a found record with a falsy `url` does not continue the search but falls
through to the fallback, exactly as in the source. -/
def getActualFileUrl (store : List FileRec) (fileName : String) : Except Unit String :=
  match store.find? (fun r => r.name == fileName) with
  | some r => if r.url != "" then .ok r.url else fallbackUrl fileName
  | none => fallbackUrl fileName

/-- `getFileSize` (line 229): stored truthy size wins; otherwise
`Math.floor(Math.random() * 5000000) + 100000`.  The random draw is an
explicit parameter `draw`; `draw % 5000000 + 100000` ranges over exactly the
source's `[100000, 5099999]`. -/
def getFileSize (store : List FileRec) (draw : Nat) (fileName : String) : Nat :=
  match store.find? (fun r => r.name == fileName) with
  | some r => if r.size != 0 then r.size else draw % 5000000 + 100000
  | none => draw % 5000000 + 100000

/-! ## ContentTransformer: `formatMessageContent`

The source runs, in order:
1. an `exec` loop over `/📎 (.+?)(?:\n|$)/g` extracting attachments and
   deleting each matched token from a working copy of the text,
2. `replace` of markdown images `/!\[(.*?)\]\((.*?)\)/g`,
3. `replace` of bare URLs `/(https?:\/\/[^\s]+)/g`,
4. `highlightZaniMentions` (zaniService, modelled from the spec),
5. `replace` of mentions `/@(\w+)(?!zani)/g` and channels `/#(\w+)/g`,
6. `replace` of `*bold*`, `_italic_` and backtick code spans.

Each scanner takes a fuel argument (set to the input length at the call
site); every step consumes at least one input character, so the fuel is
never exhausted on the actual calls. -/

structure FileAtt where
  name : String
  type : String
  url : String
  size : Nat
deriving DecidableEq

structure FormattedContent where
  formattedContent : String
  files : List FileAtt
deriving DecidableEq

/-- One `exec` of `/📎 (.+?)(?:\n|$)/g` on the remaining input: the leftmost
position where the marker is followed by at least one non-newline character.
Returns the raw captured file name (the rest of that line), whether the match
ended with a newline (which is then part of `match[0]`), and the input after
the match.  A marker followed directly by a newline or end of input does not
match there, and scanning continues one character later, as a regex engine
does. -/
def findFileMatch : Nat → List Char → Option (List Char × Bool × List Char)
  | 0, _ => none
  | _ + 1, [] => none
  | f + 1, c :: rest =>
    if fileMarker.isPrefixOf (c :: rest) then
      match (c :: rest).drop 2 with
      | [] => findFileMatch f rest
      | d :: tail =>
        if d == '\n' then findFileMatch f rest
        else
          let raw := (d :: tail).takeWhile (fun ch => ch != '\n')
          match (d :: tail).drop raw.length with
          | '\n' :: after => some (raw, true, after)
          | after => some (raw, false, after)
    else findFileMatch f rest

/-- The `while ((match = filePattern.exec(content)) !== null)` loop
(lines 152-161): `rem` is the original content from the regex `lastIndex`
on, `txt` is the working `textContent`.  Each iteration trims the matched
file name, builds the attachment record (the `url` field evaluation can
throw out of the whole transformation, before the size is drawn), removes
the first occurrence of `match[0]` from the working text and trims it.
The i-th extracted attachment uses the random draw `rnd i` when its size
is unresolved. -/
def extractGo (store : List FileRec) (rnd : Nat → Nat) :
    Nat → List Char → List Char → List FileAtt →
    Except Unit (List Char × List FileAtt)
  | 0, _, txt, acc => .ok (txt, acc)
  | f + 1, rem, txt, acc =>
    match findFileMatch rem.length rem with
    | none => .ok (txt, acc)
    | some (raw, hadNl, after) =>
      let fileName := String.mk (trimChars raw)
      let matchStr := fileMarker ++ raw ++ (if hadNl then ['\n'] else [])
      match getActualFileUrl store fileName with
      | .error e => .error e
      | .ok url =>
        let att : FileAtt :=
          { name := fileName
            type := getFileType fileName
            url := url
            size := getFileSize store (rnd acc.length) fileName }
        extractGo store rnd f after (trimChars (removeFirst matchStr txt)) (acc ++ [att])

/-- Scan for a closing character, failing on newline or end of input:
the lazy groups `(.*?)\]` and `(.*?)\)` of the image regex (`.` does not
match a newline). -/
def scanUntil (close : Char) : List Char → Option (List Char × List Char)
  | [] => none
  | c :: rest =>
    if c == close then some ([], rest)
    else if c == '\n' then none
    else (scanUntil close rest).map (fun p => (c :: p.1, p.2))

/-- The replacement emitted for `![alt](url)` (line 170), with `alt` and
`url` interpolated verbatim. -/
def imgTag (alt url : List Char) : List Char :=
  "<img src=\"".data ++ url ++ "\" alt=\"".data ++ alt ++
    "\" class=\"max-w-full rounded-md my-2 cursor-pointer hover:opacity-90 transition-opacity\" style=\"max-height: 300px;\" onclick=\"window.open('".data ++
    url ++ "', '_blank')\" />".data

/-- `replace(/!\[(.*?)\]\((.*?)\)/g, ...)`: left-to-right scan; on a failed
parse the scan advances one character, on success it continues after the
match without rescanning the replacement. -/
def imageGo : Nat → List Char → List Char
  | 0, _ => []
  | _ + 1, [] => []
  | f + 1, c :: rest =>
    if c == '!' then
      match rest with
      | '[' :: r2 =>
        match scanUntil ']' r2 with
        | some (alt, r3) =>
          match r3 with
          | '(' :: r4 =>
            match scanUntil ')' r4 with
            | some (url, r5) => imgTag alt url ++ imageGo f r5
            | none => c :: imageGo f rest
          | _ => c :: imageGo f rest
        | none => c :: imageGo f rest
      | _ => c :: imageGo f rest
    else c :: imageGo f rest

/-- The replacement for a bare URL match (line 175), `$1` = the match. -/
def anchorTag (url : List Char) : List Char :=
  "<a href=\"".data ++ url ++
    "\" target=\"_blank\" rel=\"noopener noreferrer\" class=\"text-blue-400 hover:underline\">".data ++
    url ++ "</a>".data

/-- `replace(/(https?:\/\/[^\s]+)/g, ...)`: `https?://` followed by a
maximal nonempty run of non-whitespace characters. -/
def urlGo : Nat → List Char → List Char
  | 0, _ => []
  | _ + 1, [] => []
  | f + 1, c :: rest =>
    let s := c :: rest
    let plen : Nat :=
      if "https://".data.isPrefixOf s then 8
      else if "http://".data.isPrefixOf s then 7
      else 0
    if plen == 0 then c :: urlGo f rest
    else
      let run := (s.drop plen).takeWhile (fun ch => !ch.isWhitespace)
      if run.isEmpty then c :: urlGo f rest
      else anchorTag (s.take plen ++ run) ++ urlGo f (s.drop (plen + run.length))

/-- Modelled from the spec: the markup `highlightZaniMentions` (zaniService,
not under `src/`) wraps an assistant token in; the spec fixes only that the
token is "visually distinguished" as an inline element. -/
def zaniSpan : List Char := "<span class=\"zani-mention\">@zani</span>".data

/-- Does the assistant token end at an exact boundary here?  Modelled from
the spec: per section 8 the token must not match as a prefix of a longer
token such as `@zani-bot`, so the character after `@zani` must be absent or
whitespace. -/
def zaniBoundary : List Char → Bool
  | [] => true
  | c :: _ => c.isWhitespace

/-- Modelled from the spec: `zaniService.highlightZaniMentions` (stage 4,
spec section 4.1) — replace every exact-boundary occurrence of the reserved
token `@zani` with a styled span; the boundary character is not consumed. -/
def highlightGo : Nat → List Char → List Char
  | 0, _ => []
  | _ + 1, [] => []
  | f + 1, c :: rest =>
    if c == '@' && "zani".data.isPrefixOf rest && zaniBoundary (rest.drop 4) then
      zaniSpan ++ highlightGo f (rest.drop 4)
    else c :: highlightGo f rest

/-- Modelled from the spec: `zaniService.highlightZaniMentions` as a
`String` transformation. -/
def highlightZaniMentions (s : String) : String :=
  String.mk (highlightGo s.data.length s.data)

/-- Backtracking of `@(\w+)(?!zani)`: the capture starts as the maximal
word-character run and is shortened while the negative lookahead fails,
i.e. while the text right after the capture starts with `zani`.  `rest` is
the text after the `@`; the result is the accepted capture length. -/
def mentionPickGo (rest : List Char) : Nat → Option Nat
  | 0 => none
  | k + 1 =>
    if "zani".data.isPrefixOf (rest.drop (k + 1)) then mentionPickGo rest k
    else some (k + 1)

/-- The replacement span for an ordinary mention (line 182), `@$1`. -/
def mentionSpan (w : List Char) : List Char :=
  "<span class=\"text-blue-400 hover:underline cursor-pointer\">@".data ++ w ++ "</span>".data

/-- `replace(/@(\w+)(?!zani)/g, ...)` (line 164 / line 182). -/
def mentionGo : Nat → List Char → List Char
  | 0, _ => []
  | _ + 1, [] => []
  | f + 1, c :: rest =>
    if c == '@' then
      let w := rest.takeWhile isWordChar
      if w.isEmpty then c :: mentionGo f rest
      else
        match mentionPickGo rest w.length with
        | some k => mentionSpan (rest.take k) ++ mentionGo f (rest.drop k)
        | none => c :: mentionGo f rest
    else c :: mentionGo f rest

/-- The replacement span for a channel reference (line 183), `#$1`. -/
def channelSpan (w : List Char) : List Char :=
  "<span class=\"text-blue-400 hover:underline cursor-pointer\">#".data ++ w ++ "</span>".data

/-- `replace(/#(\w+)/g, ...)` (line 165 / line 183). -/
def channelGo : Nat → List Char → List Char
  | 0, _ => []
  | _ + 1, [] => []
  | f + 1, c :: rest =>
    if c == '#' then
      let w := rest.takeWhile isWordChar
      if w.isEmpty then c :: channelGo f rest
      else channelSpan w ++ channelGo f (rest.drop w.length)
    else c :: channelGo f rest

/-- One emphasis pass (lines 187-189): `delim x+ delim` with a nonempty
interior free of the delimiter becomes `pre ++ interior ++ post`; an
unpaired or empty-interior delimiter is left in place. -/
def emphGo (delim : Char) (pre post : List Char) : Nat → List Char → List Char
  | 0, _ => []
  | _ + 1, [] => []
  | f + 1, c :: rest =>
    if c == delim then
      let interior := rest.takeWhile (fun ch => ch != delim)
      if interior.isEmpty then c :: emphGo delim pre post f rest
      else
        match rest.drop interior.length with
        | _ :: r3 => pre ++ interior ++ post ++ emphGo delim pre post f r3
        | [] => c :: emphGo delim pre post f rest
    else c :: emphGo delim pre post f rest

/-- The backtick delimiter of the inline-code rule, kept out of source text
as a character code. -/
def tickChar : Char := Char.ofNat 96

/-- `formatMessageContent` (lines 145-192): attachment extraction, then the
ordered rewrite stages on the remaining text.  The external inputs are the
parsed `slackAI_files` snapshot and the random-size draws. -/
def formatMessageContent (store : List FileRec) (rnd : Nat → Nat)
    (content : String) : Except Unit FormattedContent :=
  match extractGo store rnd (content.length + 1) content.data content.data [] with
  | .error e => .error e
  | .ok (textContent, files) =>
    let s1 := imageGo textContent.length textContent
    let s2 := urlGo s1.length s1
    let s3 := highlightGo s2.length s2
    let s4 := mentionGo s3.length s3
    let s5 := channelGo s4.length s4
    let s6 := emphGo '*' "<strong>".data "</strong>".data s5.length s5
    let s7 := emphGo '_' "<em>".data "</em>".data s6.length s6
    let s8 := emphGo tickChar "<code class=\"bg-gray-700 px-1 rounded text-white\">".data "</code>".data s7.length s7
    .ok { formattedContent := String.mk s8, files := files }

/-! ## MentionDetector (zaniService, modelled from the spec)

`containsZaniMention` and `extractZaniQuery` live in `@/services/zaniService`,
repository code not present under `src/`; they are modelled from the spec:
the reserved token `@zani` is recognized at an exact boundary only (not as a
prefix of a longer token such as `@zani-bot`, spec section 8), and the query
is the text after the token up to end of content, trimmed (section 4.3). -/

/-- Modelled from the spec: `zaniService.containsZaniMention` — is there an
exact-boundary occurrence of the reserved token `@zani`? -/
def containsZaniAux : List Char → Bool
  | [] => false
  | c :: rest =>
    (c == '@' && "zani".data.isPrefixOf rest && zaniBoundary (rest.drop 4))
      || containsZaniAux rest

/-- Modelled from the spec: `zaniService.containsZaniMention`. -/
def containsZaniMention (s : String) : Bool := containsZaniAux s.data

/-- Modelled from the spec: `zaniService.extractZaniQuery` — the trimmed text
after the first exact-boundary occurrence of the token; `""` (falsy) when the
token is absent or nothing follows it. -/
def extractZaniAux : List Char → List Char
  | [] => []
  | c :: rest =>
    if c == '@' && "zani".data.isPrefixOf rest && zaniBoundary (rest.drop 4) then
      trimChars (rest.drop 4)
    else extractZaniAux rest

/-- Modelled from the spec: `zaniService.extractZaniQuery`. -/
def extractZaniQuery (s : String) : String := String.mk (extractZaniAux s.data)

/-! ## ResponseCache (zaniService, modelled from the spec)

The persisted response cache and its processed marker (spec section 4.4) are
modelled as a snapshot value: an association list of `(messageId, text)`
entries plus the set of processed ids.  Per section 4.5 a message becomes
processed exactly when its final response (success text or sentinel) is
stored. -/

structure CacheStore where
  entries : List (String × String)
  processedIds : List String
deriving DecidableEq

/-- The empty cache: no responses stored, nothing processed. -/
def emptyStore : CacheStore := { entries := [], processedIds := [] }

/-- Modelled from the spec: `zaniService.getStoredZaniResponse` — the cached
text for a message id, if any. -/
def getStoredZaniResponse (st : CacheStore) (id : String) : Option String :=
  (st.entries.find? (fun e => e.fst == id)).map (fun e => e.snd)

/-- Modelled from the spec: `zaniService.storeZaniResponse` — record the final
response text for a message id and mark the message processed. -/
def storeZaniResponse (st : CacheStore) (id text : String) : CacheStore :=
  { entries := (id, text) :: st.entries, processedIds := id :: st.processedIds }

/-- Modelled from the spec: `zaniService.isMessageProcessed`. -/
def isMessageProcessed (st : CacheStore) (id : String) : Bool :=
  st.processedIds.contains id

/-- The fixed sentinel error response written on query failure
(MessageBubble.tsx line 97). -/
def zaniErrorResponse : String := "Sorry, I encountered an error processing your request."

/-- JavaScript truthiness of the `storedResponse` check (line 72): a present,
nonempty string. -/
def truthyOpt : Option String → Bool
  | some t => t != ""
  | none => false

/-- Modelled from the spec: `zaniService.processZaniQuery` — invoke the
external query service (its outcome is the explicit `svc` argument: a
rejection or the resolved text) and, on a success carrying text, write that
text to the ResponseCache under the message id (spec section 4.5, success
path); a rejection propagates to the caller's catch block.  The channel
history and raw-content arguments of the source call do not affect the
modelled outcome and are omitted. -/
def processZaniQuery (svc : Except Unit String) (id : String) (st : CacheStore) :
    Except Unit (String × CacheStore) :=
  match svc with
  | .ok resp => .ok (resp, if resp == "" then st else storeZaniResponse st id resp)
  | .error e => .error e

/-! ## QueryDispatcher: the `processZani` effect (lines 67-109)

A message carries its id and raw content.  The dispatcher state is the cache
snapshot, the in-memory `isProcessingZani` flag, the exposed `zaniResponse`,
and a counter of external query-service invocations (for the at-most-once
properties).  `processZani svc m s` is one complete, uninterleaved run of the
effect body with service outcome `svc`. -/

structure Msg where
  id : String
  content : String
deriving DecidableEq

structure DState where
  store : CacheStore
  flag : Bool
  exposed : Option String
  calls : Nat
deriving DecidableEq

/-- One full run of the `processZani` effect: guard on content and mention;
expose a truthy stored response; otherwise, unless processed or in flight and
provided a truthy query, set the flag, invoke the service, on success expose
a truthy response, on failure store and expose the sentinel, and finally
clear the flag. -/
def processZani (svc : Except Unit String) (m : Msg) (s : DState) : DState :=
  if m.content != "" && containsZaniMention m.content then
    let stored := getStoredZaniResponse s.store m.id
    if truthyOpt stored then { s with exposed := stored }
    else if !isMessageProcessed s.store m.id && !s.flag then
      if extractZaniQuery m.content != "" then
        match processZaniQuery svc m.id s.store with
        | .ok (resp, st) =>
          { store := st
            flag := false
            exposed := if resp != "" then some resp else s.exposed
            calls := s.calls + 1 }
        | .error _ =>
          { store := storeZaniResponse s.store m.id zaniErrorResponse
            flag := false
            exposed := some zaniErrorResponse
            calls := s.calls + 1 }
      else s
    else s
  else s

/-! ## Interleaved dispatch

Repeated renders can trigger the effect again before an earlier run's await
resolves, and the `isProcessingZani` React state set by one run is not
visible to a concurrently triggered run until committed.  Each invocation is
therefore split into atomic steps: evaluate the guard block (cache,
processed, flag, query), then set the flag and fire the service call, then
resolve.  A system state holds the shared cache, flag and call counter and
one phase per invocation; a schedule is the list of invocation indices in
execution order. -/

inductive ZPhase
  | start
  | passed
  | waiting
  | done
deriving DecidableEq

structure ISys where
  store : CacheStore
  flag : Bool
  calls : Nat
  phases : List ZPhase
deriving DecidableEq

/-- The guard block of the effect (lines 69-80): content nonempty with a
mention, no truthy cached response, not processed, flag clear, truthy query. -/
def guardOpen (m : Msg) (st : CacheStore) (flag : Bool) : Bool :=
  m.content != "" && containsZaniMention m.content
    && !truthyOpt (getStoredZaniResponse st m.id)
    && !isMessageProcessed st m.id && !flag
    && extractZaniQuery m.content != ""

/-- Resolution of an in-flight call (shared by both step relations): on
success the nonempty text is stored by `processZaniQuery`, on failure the
catch block stores the sentinel; the finally block clears the flag. -/
def resolveStep (svc : Except Unit String) (m : Msg) (sys : ISys) (i : Nat) : ISys :=
  match svc with
  | .ok resp =>
    { sys with
      store := if resp == "" then sys.store else storeZaniResponse sys.store m.id resp
      flag := false
      phases := sys.phases.set i .done }
  | .error _ =>
    { sys with
      store := storeZaniResponse sys.store m.id zaniErrorResponse
      flag := false
      phases := sys.phases.set i .done }

/-- Fine-grained step: invocation `i` advances one atomic step.  The guard
evaluation and the flag set are separate steps, so two invocations can both
pass the guard before either flag set becomes visible. -/
def istep (svc : Except Unit String) (m : Msg) (sys : ISys) (i : Nat) : ISys :=
  match sys.phases.get? i with
  | none => sys
  | some .done => sys
  | some .start =>
    if guardOpen m sys.store sys.flag then { sys with phases := sys.phases.set i .passed }
    else { sys with phases := sys.phases.set i .done }
  | some .passed =>
    { sys with flag := true, calls := sys.calls + 1, phases := sys.phases.set i .waiting }
  | some .waiting => resolveStep svc m sys i

/-- Run a schedule in the fine-grained model. -/
def irun (svc : Except Unit String) (m : Msg) (sys : ISys) (sched : List Nat) : ISys :=
  sched.foldl (istep svc m) sys

/-- Atomic-check-and-set step: the guard evaluation, flag set and service
call happen in one indivisible step (the repair the spec's concurrency
section prescribes).  The `passed` phase is unused in this model. -/
def fstep (svc : Except Unit String) (m : Msg) (sys : ISys) (i : Nat) : ISys :=
  match sys.phases.get? i with
  | none => sys
  | some .done => sys
  | some .passed => sys
  | some .start =>
    if guardOpen m sys.store sys.flag then
      { sys with flag := true, calls := sys.calls + 1, phases := sys.phases.set i .waiting }
    else { sys with phases := sys.phases.set i .done }
  | some .waiting => resolveStep svc m sys i

/-- Run a schedule in the atomic-check-and-set model. -/
def frun (svc : Except Unit String) (m : Msg) (sys : ISys) (sched : List Nat) : ISys :=
  sched.foldl (fstep svc m) sys

/-! ## Dispatcher theorems -/

/-- Storing a response makes it the retrievable response for that id. -/
theorem getStored_store_same (st : CacheStore) (id txt : String) :
    getStoredZaniResponse (storeZaniResponse st id txt) id = some txt := by
  simp [getStoredZaniResponse, storeZaniResponse, List.find?]

/-- The guard condition of the dispatch, as one Bool fact. -/
theorem guard_cond_true {m : Msg} (hne : m.content ≠ "")
    (hc : containsZaniMention m.content = true) :
    (m.content != "" && containsZaniMention m.content) = true := by
  simp [bne_iff_ne, hne, hc]

/-- C2: a message in the Answered state (a truthy response is retrievable
from the ResponseCache for its id): dispatching exposes the cached text and
leaves the whole state otherwise unchanged, so a repeated dispatch makes no
service call and exposes the same text both times. -/
theorem ensureAnswered_idempotent_on_answered
    (svc svc' : Except Unit String) (m : Msg) (s : DState) (t : String)
    (hne : m.content ≠ "") (hc : containsZaniMention m.content = true)
    (hget : getStoredZaniResponse s.store m.id = some t) (ht : t ≠ "") :
    (processZani svc m s).calls = s.calls
      ∧ (processZani svc m s).exposed = some t
      ∧ (processZani svc m s).store = s.store
      ∧ (processZani svc' m (processZani svc m s)).calls = s.calls
      ∧ (processZani svc' m (processZani svc m s)).exposed = some t := by
  have hcond := guard_cond_true hne hc
  have htr : truthyOpt (getStoredZaniResponse s.store m.id) = true := by
    rw [hget]; simp [truthyOpt, bne_iff_ne, ht]
  have h1 : processZani svc m s = { s with exposed := some t } := by
    simp [processZani, hcond, hget, truthyOpt, bne_iff_ne, ht]
  have h2 : processZani svc' m { s with exposed := some t } = { s with exposed := some t } := by
    simp [processZani, hcond, hget, truthyOpt, bne_iff_ne, ht]
  rw [h1, h2]
  exact ⟨rfl, rfl, rfl, rfl, rfl⟩

/-- C2 witness message: an assistant-mention message. -/
def mW : Msg := ⟨"m1", "@zani ping"⟩

/-- Witness state with a cached response for `mW`. -/
def sWhit : DState := ⟨⟨[("m1", "hi")], ["m1"]⟩, false, none, 0⟩

/-- Witness state with an empty cache. -/
def sW0 : DState := ⟨emptyStore, false, none, 0⟩

/-- C2 witness: the idempotence theorem applied at a concrete answered
message. -/
theorem ensureAnswered_idempotent_on_answered_witness :
    (processZani (.ok "x") mW sWhit).calls = 0
      ∧ (processZani (.ok "x") mW sWhit).exposed = some "hi"
      ∧ (processZani (.ok "x") mW sWhit).store = sWhit.store
      ∧ (processZani (.error ()) mW (processZani (.ok "x") mW sWhit)).calls = 0
      ∧ (processZani (.error ()) mW (processZani (.ok "x") mW sWhit)).exposed = some "hi" := by
  exact ensureAnswered_idempotent_on_answered (.ok "x") (.error ()) mW sWhit "hi"
    (by decide) (by decide) (by decide) (by decide)

/-- C3: a rejected query stores the fixed sentinel under the message id,
clears the flag, exposes the sentinel, and every later dispatch is a no-op
that keeps exposing the sentinel without another service call. -/
theorem failure_writes_sentinel_permanent
    (svc' : Except Unit String) (m : Msg) (s : DState)
    (hne : m.content ≠ "") (hc : containsZaniMention m.content = true)
    (hmiss : truthyOpt (getStoredZaniResponse s.store m.id) = false)
    (hproc : isMessageProcessed s.store m.id = false)
    (hflag : s.flag = false)
    (hq : extractZaniQuery m.content ≠ "") :
    getStoredZaniResponse (processZani (.error ()) m s).store m.id = some zaniErrorResponse
      ∧ (processZani (.error ()) m s).flag = false
      ∧ (processZani (.error ()) m s).exposed = some zaniErrorResponse
      ∧ (processZani (.error ()) m s).calls = s.calls + 1
      ∧ processZani svc' m (processZani (.error ()) m s) = processZani (.error ()) m s := by
  have hcond := guard_cond_true hne hc
  have h1 : processZani (.error ()) m s =
      { store := storeZaniResponse s.store m.id zaniErrorResponse, flag := false,
        exposed := some zaniErrorResponse, calls := s.calls + 1 } := by
    simp [processZani, hcond, hmiss, hproc, hflag, hq, processZaniQuery, bne_iff_ne]
  rw [h1]
  refine ⟨getStored_store_same _ _ _, rfl, rfl, rfl, ?_⟩
  simp [processZani, hcond, getStored_store_same, truthyOpt, bne_iff_ne, zaniErrorResponse]

/-- C3 witness: the failure-permanence theorem applied at a concrete
unanswered message. -/
theorem failure_writes_sentinel_permanent_witness :
    getStoredZaniResponse (processZani (.error ()) mW sW0).store "m1" = some zaniErrorResponse
      ∧ (processZani (.error ()) mW sW0).flag = false
      ∧ (processZani (.error ()) mW sW0).exposed = some zaniErrorResponse
      ∧ (processZani (.error ()) mW sW0).calls = 1
      ∧ processZani (.ok "late") mW (processZani (.error ()) mW sW0)
          = processZani (.error ()) mW sW0 := by
  exact failure_writes_sentinel_permanent (.ok "late") mW sW0
    (by decide) (by decide) (by decide) (by decide) (by decide) (by decide)

/-- C4: a successful query with nonempty text writes that text to the
ResponseCache under the message id, clears the flag, and exposes it; the
service was invoked exactly once. -/
theorem success_writes_cache_and_exposes
    (m : Msg) (s : DState) (t : String)
    (hne : m.content ≠ "") (hc : containsZaniMention m.content = true)
    (hmiss : truthyOpt (getStoredZaniResponse s.store m.id) = false)
    (hproc : isMessageProcessed s.store m.id = false)
    (hflag : s.flag = false)
    (hq : extractZaniQuery m.content ≠ "") (ht : t ≠ "") :
    getStoredZaniResponse (processZani (.ok t) m s).store m.id = some t
      ∧ (processZani (.ok t) m s).flag = false
      ∧ (processZani (.ok t) m s).exposed = some t
      ∧ (processZani (.ok t) m s).calls = s.calls + 1 := by
  have hcond := guard_cond_true hne hc
  have h1 : processZani (.ok t) m s =
      { store := storeZaniResponse s.store m.id t, flag := false,
        exposed := some t, calls := s.calls + 1 } := by
    simp [processZani, hcond, hmiss, hproc, hflag, hq, processZaniQuery, bne_iff_ne, ht]
  rw [h1]
  exact ⟨getStored_store_same _ _ _, rfl, rfl, rfl⟩

/-- C4 witness: the success theorem applied at a concrete unanswered
message. -/
theorem success_writes_cache_and_exposes_witness :
    getStoredZaniResponse (processZani (.ok "answer") mW sW0).store "m1" = some "answer"
      ∧ (processZani (.ok "answer") mW sW0).flag = false
      ∧ (processZani (.ok "answer") mW sW0).exposed = some "answer"
      ∧ (processZani (.ok "answer") mW sW0).calls = 1 := by
  exact success_writes_cache_and_exposes mW sW0 "answer"
    (by decide) (by decide) (by decide) (by decide) (by decide) (by decide) (by decide)

/-- C10: a falsy (empty) service result exposes nothing and writes nothing:
the cache, the processed set and the exposed response are unchanged, the
flag is cleared, and the message stays eligible — a later dispatch with a
nonempty result fires a fresh service call and answers it. -/
theorem empty_response_leaves_message_unanswered
    (m : Msg) (s : DState)
    (hne : m.content ≠ "") (hc : containsZaniMention m.content = true)
    (hmiss : truthyOpt (getStoredZaniResponse s.store m.id) = false)
    (hproc : isMessageProcessed s.store m.id = false)
    (hflag : s.flag = false)
    (hq : extractZaniQuery m.content ≠ "") :
    (processZani (.ok "") m s).store = s.store
      ∧ (processZani (.ok "") m s).flag = false
      ∧ (processZani (.ok "") m s).exposed = s.exposed
      ∧ (processZani (.ok "") m s).calls = s.calls + 1
      ∧ ∀ t : String, t ≠ "" →
          (processZani (.ok t) m (processZani (.ok "") m s)).calls = s.calls + 2
            ∧ (processZani (.ok t) m (processZani (.ok "") m s)).exposed = some t := by
  have hcond := guard_cond_true hne hc
  have h1 : processZani (.ok "") m s =
      { store := s.store, flag := false, exposed := s.exposed, calls := s.calls + 1 } := by
    simp [processZani, hcond, hmiss, hproc, hflag, hq, processZaniQuery, bne_iff_ne]
  rw [h1]
  refine ⟨rfl, rfl, rfl, rfl, ?_⟩
  intro t ht
  have h2 := success_writes_cache_and_exposes m
    { store := s.store, flag := false, exposed := s.exposed, calls := s.calls + 1 } t
    hne hc hmiss hproc rfl hq ht
  exact ⟨h2.2.2.2, h2.2.2.1⟩

/-- C10 witness: the empty-result theorem applied at a concrete unanswered
message. -/
theorem empty_response_leaves_message_unanswered_witness :
    (processZani (.ok "") mW sW0).store = emptyStore
      ∧ (processZani (.ok "") mW sW0).flag = false
      ∧ (processZani (.ok "") mW sW0).exposed = none
      ∧ (processZani (.ok "") mW sW0).calls = 1
      ∧ (processZani (.ok "t2") mW (processZani (.ok "") mW sW0)).calls = 2
      ∧ (processZani (.ok "t2") mW (processZani (.ok "") mW sW0)).exposed = some "t2" := by
  have h := empty_response_leaves_message_unanswered mW sW0
    (by decide) (by decide) (by decide) (by decide) (by decide) (by decide)
  have h5 := h.2.2.2.2 "t2" (by decide)
  exact ⟨h.1, h.2.1, h.2.2.1, h.2.2.2.1, h5.1, h5.2⟩

/-! ## At-most-once dispatch under interleaving -/

/-- C1 counterexample: two invocations for the same unanswered mention
message, interleaved so that both evaluate the guard before either flag set
is visible (schedule `[0, 1, 0, 1]`), make two query-service calls — the
claimed at-most-once bound fails on the non-atomic check-then-set. -/
theorem interleaved_dispatch_two_calls :
    (irun (.ok "hi") ⟨"m1", "@zani ping"⟩
      ⟨emptyStore, false, 0, [.start, .start]⟩ [0, 1, 0, 1]).calls = 2 := by
  decide

/-- A dispatch system state is blocked for message `m` when the flag is set,
a truthy response is cached, or the message is processed. -/
def blockedFor (m : Msg) (sys : ISys) : Prop :=
  sys.flag = true
    ∨ truthyOpt (getStoredZaniResponse sys.store m.id) = true
    ∨ isMessageProcessed sys.store m.id = true

/-- Invariant after the single allowed dispatch: one call made, and every
further guard is blocked. -/
def InvB (m : Msg) (sys : ISys) : Prop :=
  sys.calls = 1 ∧ blockedFor m sys

/-- Invariant before any dispatch: no calls, flag clear, nothing in flight. -/
def InvA (sys : ISys) : Prop :=
  sys.calls = 0 ∧ sys.flag = false ∧ ZPhase.waiting ∉ sys.phases

/-- A blocked state closes the guard. -/
theorem guard_closed_of_blocked {m : Msg} {sys : ISys} (h : blockedFor m sys) :
    guardOpen m sys.store sys.flag = false := by
  rcases h with h | h | h <;> simp [guardOpen, h]

/-- Resolution preserves `InvB` when the service result is not the empty
string: the stored text (response or sentinel) is truthy. -/
theorem resolveStep_preserves_InvB {svc : Except Unit String} {m : Msg} {sys : ISys} {i : Nat}
    (hsvc : ∀ t, svc = .ok t → t ≠ "") (h : InvB m sys) :
    InvB m (resolveStep svc m sys i) := by
  obtain ⟨hcalls, _⟩ := h
  cases svc with
  | ok resp =>
    have hr : resp ≠ "" := hsvc resp rfl
    refine ⟨hcalls, Or.inr (Or.inl ?_)⟩
    simp [resolveStep, bne_iff_ne, hr, getStored_store_same, truthyOpt]
  | error e =>
    refine ⟨hcalls, Or.inr (Or.inl ?_)⟩
    simp [resolveStep, getStored_store_same, truthyOpt, bne_iff_ne, zaniErrorResponse]

/-- One atomic-check-and-set step preserves `InvB`. -/
theorem fstep_preserves_InvB {svc : Except Unit String} {m : Msg} {sys : ISys} {i : Nat}
    (hsvc : ∀ t, svc = .ok t → t ≠ "") (h : InvB m sys) :
    InvB m (fstep svc m sys i) := by
  obtain ⟨hcalls, hblocked⟩ := h
  unfold fstep
  cases hph : sys.phases.get? i with
  | none => exact ⟨hcalls, hblocked⟩
  | some ph =>
    cases ph with
    | start =>
      rw [guard_closed_of_blocked hblocked]
      simp only
      exact ⟨hcalls, hblocked⟩
    | passed => exact ⟨hcalls, hblocked⟩
    | waiting => exact resolveStep_preserves_InvB hsvc ⟨hcalls, hblocked⟩
    | done => exact ⟨hcalls, hblocked⟩

/-- One atomic-check-and-set step preserves the full invariant. -/
theorem fstep_preserves_Inv {svc : Except Unit String} {m : Msg} {sys : ISys} {i : Nat}
    (hsvc : ∀ t, svc = .ok t → t ≠ "") (h : InvA sys ∨ InvB m sys) :
    InvA (fstep svc m sys i) ∨ InvB m (fstep svc m sys i) := by
  cases h with
  | inr hB => exact Or.inr (fstep_preserves_InvB hsvc hB)
  | inl hA =>
    obtain ⟨hcalls, hflag, hwait⟩ := hA
    unfold fstep
    cases hph : sys.phases.get? i with
    | none => exact Or.inl ⟨hcalls, hflag, hwait⟩
    | some ph =>
      cases ph with
      | start =>
        cases hg : guardOpen m sys.store sys.flag with
        | true =>
          refine Or.inr ⟨?_, Or.inl ?_⟩ <;> simp [hcalls]
        | false =>
          simp only
          refine Or.inl ⟨hcalls, hflag, ?_⟩
          intro hmem
          cases List.mem_or_eq_of_mem_set hmem with
          | inl hin => exact hwait hin
          | inr heq => exact ZPhase.noConfusion heq
      | passed => exact Or.inl ⟨hcalls, hflag, hwait⟩
      | waiting => exact absurd (List.get?_mem hph) hwait
      | done => exact Or.inl ⟨hcalls, hflag, hwait⟩

/-- Running any schedule preserves `InvB`. -/
theorem frun_preserves_InvB {svc : Except Unit String} {m : Msg}
    (hsvc : ∀ t, svc = .ok t → t ≠ "") :
    ∀ (sched : List Nat) (sys : ISys), InvB m sys → InvB m (frun svc m sys sched)
  | [], _, h => h
  | i :: rest, sys, h =>
    frun_preserves_InvB hsvc rest (fstep svc m sys i) (fstep_preserves_InvB hsvc h)

/-- Running any schedule preserves the full invariant. -/
theorem frun_preserves_Inv {svc : Except Unit String} {m : Msg}
    (hsvc : ∀ t, svc = .ok t → t ≠ "") :
    ∀ (sched : List Nat) (sys : ISys),
      (InvA sys ∨ InvB m sys) → InvA (frun svc m sys sched) ∨ InvB m (frun svc m sys sched)
  | [], _, h => h
  | i :: rest, sys, h =>
    frun_preserves_Inv hsvc rest (fstep svc m sys i) (fstep_preserves_Inv hsvc h)

/-- C1 (amended): when each invocation's guard check and flag set execute as
one atomic step — the repair the spec's concurrency section prescribes — any
interleaving of `n` dispatch invocations for an unanswered mention message
makes at most one query-service call, and exactly one as soon as any
invocation takes a step (provided the service rejects or resolves with
nonempty text, so that its outcome is recorded). -/
theorem atomic_dispatch_at_most_once
    (svc : Except Unit String) (m : Msg) (st : CacheStore) (n : Nat) (sched : List Nat)
    (hsvc : ∀ t, svc = .ok t → t ≠ "")
    (hne : m.content ≠ "") (hc : containsZaniMention m.content = true)
    (hmiss : truthyOpt (getStoredZaniResponse st m.id) = false)
    (hproc : isMessageProcessed st m.id = false)
    (hq : extractZaniQuery m.content ≠ "") :
    (frun svc m ⟨st, false, 0, List.replicate n .start⟩ sched).calls ≤ 1
      ∧ ∀ i rest, sched = i :: rest → i < n →
          (frun svc m ⟨st, false, 0, List.replicate n .start⟩ sched).calls = 1 := by
  have hInit : InvA (⟨st, false, 0, List.replicate n .start⟩ : ISys) := by
    refine ⟨rfl, rfl, ?_⟩
    intro hmem
    exact ZPhase.noConfusion (List.eq_of_mem_replicate hmem)
  constructor
  · cases frun_preserves_Inv (m := m) hsvc sched _ (Or.inl hInit) with
    | inl hA => rw [hA.1]; exact Nat.zero_le 1
    | inr hB => rw [hB.1]
  · intro i rest hsched hi
    subst hsched
    have hget : (List.replicate n ZPhase.start).get? i = some .start := by
      simp [List.get?_eq_getElem?, List.getElem?_replicate, hi]
    have hguard : guardOpen m st false = true := by
      simp [guardOpen, bne_iff_ne, hne, hc, hmiss, hproc, hq]
    have hstep : fstep svc m ⟨st, false, 0, List.replicate n .start⟩ i =
        ⟨st, true, 1, (List.replicate n ZPhase.start).set i .waiting⟩ := by
      unfold fstep
      rw [hget]
      simp only [hguard]
      rfl
    show (frun svc m _ (i :: rest)).calls = 1
    have : frun svc m (⟨st, false, 0, List.replicate n .start⟩ : ISys) (i :: rest)
        = frun svc m ⟨st, true, 1, (List.replicate n ZPhase.start).set i .waiting⟩ rest := by
      simp only [frun, List.foldl_cons]
      rw [show fstep svc m ⟨st, false, 0, List.replicate n .start⟩ i =
        (⟨st, true, 1, (List.replicate n ZPhase.start).set i .waiting⟩ : ISys) from hstep]
    rw [this]
    exact (frun_preserves_InvB hsvc rest _ ⟨rfl, Or.inl rfl⟩).1

/-- C1 witness: the atomic-dispatch theorem applied at a concrete message,
empty cache, two invocations and a concrete interleaving. -/
theorem atomic_dispatch_at_most_once_witness :
    (frun (.ok "hi") mW ⟨emptyStore, false, 0, List.replicate 2 .start⟩ [0, 1, 0, 1]).calls ≤ 1
      ∧ (frun (.ok "hi") mW ⟨emptyStore, false, 0, List.replicate 2 .start⟩ [0, 1, 0, 1]).calls = 1 := by
  have h := atomic_dispatch_at_most_once (.ok "hi") mW emptyStore 2 [0, 1, 0, 1]
    (by intro t ht; cases ht; decide)
    (by decide) (by decide) (by decide) (by decide) (by decide)
  exact ⟨h.1, h.2 0 [1, 0, 1] rfl (by decide)⟩

/-! ## ContentTransformer theorems -/

/-- C9: the attachment line `📎 report.pdf` followed by `hello` yields
exactly one attachment named `report.pdf` with MIME type `application/pdf`,
and markup consisting of `hello` alone — the marker token, the file name and
the trailing newline are removed from the text. -/
theorem attachment_extraction_report_pdf :
    (formatMessageContent [] (fun _ => 0) "📎 report.pdf\nhello").map
        (fun r => (r.formattedContent, r.files.map (fun f => (f.name, f.type))))
      = .ok ("hello", [("report.pdf", "application/pdf")]) := by
  rfl

/-- C5 (code bug): the transformation is not total — an attachment whose
file name contains a character above U+00FF, has no snapshot entry and no
recognized image extension reaches `btoa`, which throws, and the exception
escapes `formatMessageContent`. -/
theorem formatMessageContent_throws_on_nonLatin1_filename :
    formatMessageContent [] (fun _ => 0) "📎 日.xyz" = .error () := by
  rfl

/-- C7 (code bug): on `![a](http://x/y.png)` the image stage emits an intact
image element, but the following bare-URL stage matches the URL (plus the
closing quote) inside the emitted attributes and rewrites it into anchor
markup, so the final markup has no image element whose source is the URL:
it contains `src="<a href=` and `href="http://x/y.png"` but not
`src="http://x/y.png"`.  The attachment list is empty as claimed. -/
theorem image_roundtrip_mangled_by_url_stage :
    (formatMessageContent [] (fun _ => 0) "![a](http://x/y.png)").map
        (fun r => (r.files,
          strContains r.formattedContent "src=\"http://x/y.png\"",
          strContains r.formattedContent "href=\"http://x/y.png\"",
          strContains r.formattedContent "<img src=\"<a href="))
      = .ok ([], false, true, true) := by
  rfl

/-- C8 (code bug): the negative lookahead of `/@(\w+)(?!zani)/g` sits after
the greedy `\w+` capture and can never fail, so the ordinary-mention stage
does rewrite the reserved token: on the spec's own example the stage wraps
`@alice` and the `@zani` prefix of `@zani-bot` (leaving `-bot` outside the
span) in ordinary-mention spans. -/
theorem mention_stage_rewrites_zani_token :
    (formatMessageContent [] (fun _ => 0) "@alice asked @zani-bot something").map
        (fun r => (r.formattedContent, r.files))
      = .ok ("<span class=\"text-blue-400 hover:underline cursor-pointer\">@alice</span> asked <span class=\"text-blue-400 hover:underline cursor-pointer\">@zani</span>-bot something", []) := by
  rfl

/-- The attachment sizes of a transformation result (empty on error):
distinguishes results that differ only in the random size draws. -/
def fileSizes : Except Unit FormattedContent → List Nat
  | .ok r => r.files.map (fun f => f.size)
  | .error _ => []

/-- C6 counterexample: with a fixed (empty) attachment snapshot, two
invocations on the same content with different random draws return different
results — the fallback size is `100000` in one and `100001` in the other. -/
theorem formatMessageContent_random_size_nondeterministic :
    formatMessageContent [] (fun _ => 0) "📎 a.xyz"
      ≠ formatMessageContent [] (fun _ => 1) "📎 a.xyz" := by
  intro h
  have hsz := congrArg fileSizes h
  rw [show fileSizes (formatMessageContent [] (fun _ => 0) "📎 a.xyz") = [100000] from rfl,
    show fileSizes (formatMessageContent [] (fun _ => 1) "📎 a.xyz") = [100001] from rfl] at hsz
  exact absurd hsz (by decide)

/-- Attachment fields that do not depend on the random size draw. -/
def stripAtt (f : FileAtt) : String × String × String := (f.name, f.type, f.url)

/-- Transformation result up to attachment sizes. -/
def stripRes (r : FormattedContent) : String × List (String × String × String) :=
  (r.formattedContent, r.files.map stripAtt)

/-- The extraction loop depends on the random draws only through the size
field of each attachment: with the same snapshot, remaining input and
working text, two runs agree on the remaining text and on every attachment
up to its size. -/
theorem extractGo_deterministic_up_to_sizes (store : List FileRec) (rnd rnd' : Nat → Nat) :
    ∀ (fuel : Nat) (rem txt : List Char) (acc acc' : List FileAtt),
      acc.map stripAtt = acc'.map stripAtt →
      (extractGo store rnd fuel rem txt acc).map (fun p => (p.1, p.2.map stripAtt))
        = (extractGo store rnd' fuel rem txt acc').map (fun p => (p.1, p.2.map stripAtt)) := by
  intro fuel
  induction fuel with
  | zero =>
    intro rem txt acc acc' h
    simp [extractGo, Except.map, h]
  | succ f ih =>
    intro rem txt acc acc' h
    rw [extractGo, extractGo]
    cases hfm : findFileMatch rem.length rem with
    | none => simp [Except.map, h]
    | some trip =>
      obtain ⟨raw, hadNl, after⟩ := trip
      cases hurl : getActualFileUrl store (String.mk (trimChars raw)) with
      | error e => simp only [hurl]
      | ok url =>
        simp only [hurl]
        apply ih
        simp [stripAtt, h]

/-- C6 (amended): given the content and a fixed attachment-lookup snapshot,
the transformation is deterministic in its markup and in every attachment's
name, MIME type and URL; only the size of an attachment whose size is not
resolved by the snapshot comes from the random draw and may differ between
two invocations. -/
theorem formatMessageContent_deterministic_up_to_sizes
    (store : List FileRec) (rnd rnd' : Nat → Nat) (content : String) :
    (formatMessageContent store rnd content).map stripRes
      = (formatMessageContent store rnd' content).map stripRes := by
  have h := extractGo_deterministic_up_to_sizes store rnd rnd'
    (content.length + 1) content.data content.data [] [] rfl
  rw [formatMessageContent, formatMessageContent]
  cases h1 : extractGo store rnd (content.length + 1) content.data content.data [] with
  | error e =>
    cases h2 : extractGo store rnd' (content.length + 1) content.data content.data [] with
    | error e' => simp only
    | ok p => rw [h1, h2] at h; simp [Except.map] at h
  | ok p =>
    cases h2 : extractGo store rnd' (content.length + 1) content.data content.data [] with
    | error e' => rw [h1, h2] at h; simp [Except.map] at h
    | ok p' =>
      obtain ⟨p1, p2⟩ := p
      obtain ⟨p1', p2'⟩ := p'
      rw [h1, h2] at h
      simp only [Except.map, Except.ok.injEq, Prod.mk.injEq] at h
      obtain ⟨htxt, hfiles⟩ := h
      simp [Except.map, stripRes, htxt, hfiles]
